import Mathlib

/-!
Shallow embedding of the QuizMania backend (src/backend/app.py), covering the
in-memory quiz catalog, the scoring engine, the collaboration manager and the
leaderboard aggregator.  Python dicts are modelled as structures whose fields
are exactly the keys the code writes; a key that some reader consults but that
no writer ever stores (the "creator" key of quiz dicts: `create_quiz` stores
"created_by" while the collaboration endpoints read `quiz["creator"]`) is
modelled as an `Option` field, `none` meaning the key is absent so that the
lookup raises `KeyError`.  Numbers that Python computes in floating point
(scores, averages) are modelled in `ℚ`.  Timestamps (`datetime.now()`) are
modelled as an opaque `Nat` clock value passed to each operation.
-/

namespace QuizMania

/-- Question dict as validated and stored by `create_quiz`
(keys "question", "options", "correct"). -/
structure QuestionD where
  question : String
  options : List String
  correct : String
deriving DecidableEq

/-- Quiz dict as stored in the global `quizzes` list by `create_quiz`.
`create_quiz` writes the key "created_by" and never writes "creator";
`creator` is the optional "creator" key that the collaboration endpoints
read (`quiz["creator"]`), `none` when the key is absent.  Fields the code
writes but no claim-relevant path ever reads (`created_date`, `attempts`,
`average_score`) are omitted. -/
structure QuizD where
  id : Nat
  title : String
  description : String
  category : String
  difficulty : String
  time_limit : Int
  questions : List QuestionD
  created_by : String
  creator : Option String
deriving DecidableEq

/-- Pydantic `Answer` model: `question_id` plus the submitted label. -/
structure AnswerD where
  question_id : Int
  answer : String
deriving DecidableEq

/-- Pydantic `QuizSubmission` model. -/
structure QuizSubmission where
  quiz_id : Nat
  username : String
  answers : List AnswerD
  time_taken : Int
deriving DecidableEq

/-- One entry of the `detailed_results` list built by `submit_quiz`.
The code stores the whole `Answer` object under "your_answer". -/
structure DetailedResult where
  question : String
  your_answer : AnswerD
  correct_answer : String
  is_correct : Bool
  options : List String
deriving DecidableEq

/-- Response body of `submit_quiz` on success. -/
structure ScoreResponse where
  score : ℚ
  correct : Nat
  total : Nat
  detailed_results : List DetailedResult
deriving DecidableEq

/-- Entry appended to a quiz-history list by `submit_quiz`. -/
structure HistoryEntry where
  username : String
  quiz_title : String
  score : ℚ
  date : Nat
  detailed_results : List DetailedResult
deriving DecidableEq

/-- Collaborator dict appended to `quiz_collaborators` on invitation
acceptance. -/
structure Collaborator where
  quiz_id : Nat
  username : String
  role : String
  status : String
  invited_by : String
  invited_at : Nat
  joined_at : Nat
deriving DecidableEq

/-- Invitation dict appended to `collaboration_invitations` by
`invite_collaborator`; `responded_at` is the key added on response
(`none` while absent). -/
structure Invitation where
  id : Nat
  quiz_id : Nat
  inviter : String
  invitee : String
  role : String
  status : String
  created_at : Nat
  quiz_title : String
  responded_at : Option Nat
deriving DecidableEq

/-- Outcome of an endpoint: either a normal response, a raised
`HTTPException status detail`, or an unhandled Python exception
(`KeyError`, `IndexError`, `ZeroDivisionError`), which FastAPI surfaces
as an unclassified 500 error. -/
inductive Err where
  | http (status : Nat) (detail : String)
  | keyError (key : String)
  | indexError
  | zeroDivision
deriving DecidableEq

/-- Module-level mutable state of app.py: the four global lists. -/
structure AppState where
  quizzes : List QuizD
  quiz_history : List HistoryEntry
  quiz_collaborators : List Collaborator
  collaboration_invitations : List Invitation
deriving DecidableEq

/-- Request body accepted by `create_quiz` (after the manual
required-field checks all keys below are present; "created_by" is read
with `.get`, hence optional). -/
structure QuizInput where
  title : String
  description : String
  category : String
  difficulty : String
  time_limit : Int
  questions : List QuestionD
  created_by : Option String
deriving DecidableEq

/-- Validation loop of `create_quiz` over the question list: each question
must have at least 2 options and a correct label in {A, B, C, D};
returns the first offending 1-based index and message. -/
def validateQuestions : List QuestionD → Nat → Option Err
  | [], _ => none
  | q :: rest, i =>
    if q.options.length < 2 then
      some (Err.http 400 ("Question " ++ toString (i+1) ++ " must have at least 2 options"))
    else if q.correct ≠ "A" ∧ q.correct ≠ "B" ∧ q.correct ≠ "C" ∧ q.correct ≠ "D" then
      some (Err.http 400 ("Question " ++ toString (i+1) ++ " correct answer must be A, B, C, or D"))
    else validateQuestions rest (i+1)

/-- Maximum id of the quizzes currently in the catalog (Python:
`max([q["id"] for q in quizzes]) + 1 if quizzes else 1`). -/
def nextQuizId (qs : List QuizD) : Nat :=
  if qs.isEmpty then 1 else (qs.map QuizD.id).foldl max 0 + 1

/-- POST /create-quiz.  Validates the payload, assigns the next id and
appends the new quiz dict to the catalog.  The stored dict carries the
key "created_by" (defaulting to "Anonymous") and no "creator" key. -/
def create_quiz (s : AppState) (qd : QuizInput) : AppState × Except Err Nat :=
  let new_id := nextQuizId s.quizzes
  if qd.questions.length < 1 then
    (s, Except.error (Err.http 400 "Quiz must have at least 1 question"))
  else
    match validateQuestions qd.questions 0 with
    | some e => (s, Except.error e)
    | none =>
      let new_quiz : QuizD :=
        { id := new_id, title := qd.title, description := qd.description,
          category := qd.category, difficulty := qd.difficulty,
          time_limit := qd.time_limit, questions := qd.questions,
          created_by := qd.created_by.getD "Anonymous", creator := none }
      ({ s with quizzes := s.quizzes ++ [new_quiz] }, Except.ok new_id)

/-- Scoring loop of `submit_quiz`: `for i, answer in enumerate(submission.answers)`
reads `quiz["questions"][i]` with no bounds guard (IndexError when
`i ≥ len(questions)`) and compares the submitted label to the question's
"correct" label with `==`. -/
def gradeLoop (questions : List QuestionD) : List AnswerD → Nat → Except Err (Nat × List DetailedResult)
  | [], _ => Except.ok (0, [])
  | a :: rest, i =>
    match questions.get? i with
    | none => Except.error Err.indexError
    | some q =>
      let is_correct := a.answer == q.correct
      match gradeLoop questions rest (i+1) with
      | Except.error e => Except.error e
      | Except.ok (c, ds) =>
        Except.ok ((if is_correct then 1 else 0) + c,
          { question := q.question, your_answer := a, correct_answer := q.correct,
            is_correct := is_correct, options := q.options } :: ds)

/-- POST /submit-quiz.  Looks the quiz up in the global catalog, runs the
scoring loop, computes `score = (correct / total) * 100` (ZeroDivisionError
when the quiz has no questions), and then assigns `leaderboard = []` and
`quiz_history = []` as fresh LOCAL lists and appends the attempt entry only
to those locals, so the module-level `quiz_history` is left unchanged; the
returned state is therefore the input state. -/
def submit_quiz (s : AppState) (sub : QuizSubmission) (now : Nat) :
    AppState × Except Err ScoreResponse :=
  match s.quizzes.find? (fun q => q.id == sub.quiz_id) with
  | none => (s, Except.error (Err.http 404 "Quiz not found"))
  | some quiz =>
    let total_questions := quiz.questions.length
    match gradeLoop quiz.questions sub.answers 0 with
    | Except.error e => (s, Except.error e)
    | Except.ok (correct_answers, detailed_results) =>
      if total_questions = 0 then
        (s, Except.error Err.zeroDivision)
      else
        let score : ℚ := ((correct_answers : ℚ) / (total_questions : ℚ)) * 100
        -- lines 349-350: `leaderboard = []` and `quiz_history = []` rebind
        -- local names; the entry below is appended to the local list and
        -- discarded when the handler returns.
        let local_history : List HistoryEntry :=
          [] ++ [{ username := sub.username, quiz_title := quiz.title,
                   score := score, date := now,
                   detailed_results := detailed_results }]
        let _ := local_history
        (s, Except.ok { score := score, correct := correct_answers,
                        total := total_questions,
                        detailed_results := detailed_results })

/-- GET /quiz-history/{username}: filters the module-level `quiz_history`
by username. -/
def get_quiz_history (s : AppState) (username : String) : List HistoryEntry :=
  s.quiz_history.filter (fun e => e.username == username)

/-- Replacement of the first element satisfying `p` by `f` applied to it;
models Python's pattern of finding a dict in a list with `next(...)` and
mutating that object in place. -/
def updateFirst (p : α → Bool) (f : α → α) : List α → List α
  | [] => []
  | x :: xs => if p x then f x :: xs else x :: updateFirst p f xs

/-- Result of looking up `quiz["creator"]`: the stored "creator" key, or a
raised `KeyError` when the dict has no such key (the case for every quiz
built by `create_quiz`, which stores "created_by" instead). -/
def creatorKey (q : QuizD) : Except Err String :=
  match q.creator with
  | none => Except.error (Err.keyError "creator")
  | some c => Except.ok c

/-- POST /quiz-collaboration/invite.  Permission check: the expression
`quiz["creator"] != inviter` is evaluated first (KeyError when the key is
absent); when the inviter is not the creator, an existing collaborator row
for the inviter with role "admin" or "owner" is required (no status check).
Then duplicate-pending-invitation and existing-collaborator checks, and
finally the pending invitation is appended with id = len(invitations)+1. -/
def invite_collaborator (s : AppState) (quiz_id : Nat)
    (inviter invitee role : String) (now : Nat) : AppState × Except Err Nat :=
  match s.quizzes.find? (fun q => q.id == quiz_id) with
  | none => (s, Except.error (Err.http 404 "Quiz not found"))
  | some quiz =>
    match creatorKey quiz with
    | Except.error e => (s, Except.error e)
    | Except.ok cr =>
      -- Python: `if quiz["creator"] != inviter:` look up an admin/owner
      -- collaborator row for the inviter; raise 403 when none is found.
      if (cr != inviter) && (s.quiz_collaborators.find? (fun c =>
            c.quiz_id == quiz_id && c.username == inviter &&
            (c.role == "admin" || c.role == "owner"))).isNone then
        (s, Except.error (Err.http 403 "Insufficient permissions"))
      else if (s.collaboration_invitations.find? (fun i =>
          i.quiz_id == quiz_id && i.invitee == invitee && i.status == "pending")).isSome then
        (s, Except.error (Err.http 400 "User already invited"))
      else if (s.quiz_collaborators.find? (fun c =>
          c.quiz_id == quiz_id && c.username == invitee)).isSome then
        (s, Except.error (Err.http 400 "User already collaborating"))
      else
        let invitation_id := s.collaboration_invitations.length + 1
        let new_invitation : Invitation :=
          { id := invitation_id, quiz_id := quiz_id, inviter := inviter,
            invitee := invitee, role := role, status := "pending",
            created_at := now, quiz_title := quiz.title, responded_at := none }
        ({ s with collaboration_invitations :=
             s.collaboration_invitations ++ [new_invitation] },
         Except.ok invitation_id)

/-- Response body of `respond_to_invitation` on success. -/
inductive RespondOutcome where
  | accepted (collaborator : Collaborator)
  | declined
deriving DecidableEq

/-- POST /quiz-collaboration/respond-invitation.  Finds the invitation by
id, requires `invitation["invitee"] == username` (403) and status
"pending" (400); sets the status to "accepted" iff the action string is
exactly "accept" and to "declined" for EVERY other action value (the
action is never validated), records `responded_at`, and on accept appends
an active collaborator row carrying the invited role. -/
def respond_to_invitation (s : AppState) (invitation_id : Nat)
    (action username : String) (now : Nat) : AppState × Except Err RespondOutcome :=
  match s.collaboration_invitations.find? (fun i => i.id == invitation_id) with
  | none => (s, Except.error (Err.http 404 "Invitation not found"))
  | some invitation =>
    if invitation.invitee != username then
      (s, Except.error (Err.http 403 "Not authorized to respond to this invitation"))
    else if invitation.status != "pending" then
      (s, Except.error (Err.http 400 "Invitation already responded to"))
    else
      let new_status := if action == "accept" then "accepted" else "declined"
      let invitations' := updateFirst (fun i => i.id == invitation_id)
        (fun i => { i with status := new_status, responded_at := some now })
        s.collaboration_invitations
      if action == "accept" then
        let collaborator : Collaborator :=
          { quiz_id := invitation.quiz_id, username := username,
            role := invitation.role, status := "active",
            invited_by := invitation.inviter, invited_at := invitation.created_at,
            joined_at := now }
        ({ s with collaboration_invitations := invitations',
                  quiz_collaborators := s.quiz_collaborators ++ [collaborator] },
         Except.ok (RespondOutcome.accepted collaborator))
      else
        ({ s with collaboration_invitations := invitations' },
         Except.ok RespondOutcome.declined)

/-- DELETE /quiz-collaboration/{quiz_id}/collaborators/{username}.
Permission check first: `quiz["creator"] != remover_username` (KeyError when
the key is absent), falling back to an active-status-ignoring lookup for a
collaborator row of the remover with role exactly "admin" (403 otherwise).
Only then the owner guard (`400 Cannot remove quiz owner`), then the target
row lookup (404) and `list.remove` of the first matching row. -/
def remove_collaborator (s : AppState) (quiz_id : Nat)
    (username remover_username : String) : AppState × Except Err Unit :=
  match s.quizzes.find? (fun q => q.id == quiz_id) with
  | none => (s, Except.error (Err.http 404 "Quiz not found"))
  | some quiz =>
    match creatorKey quiz with
    | Except.error e => (s, Except.error e)
    | Except.ok cr =>
      -- Python: `if quiz["creator"] != remover_username:` look up a
      -- collaborator row of the remover with role exactly "admin";
      -- raise 403 when none is found.
      if (cr != remover_username) && (s.quiz_collaborators.find? (fun c =>
            c.quiz_id == quiz_id && c.username == remover_username &&
            c.role == "admin")).isNone then
        (s, Except.error (Err.http 403 "Insufficient permissions"))
      else if username == cr then
        (s, Except.error (Err.http 400 "Cannot remove quiz owner"))
      else
        match s.quiz_collaborators.find? (fun c =>
            c.quiz_id == quiz_id && c.username == username) with
        | none => (s, Except.error (Err.http 404 "Collaborator not found"))
        | some _ =>
          ({ s with quiz_collaborators :=
               s.quiz_collaborators.eraseP (fun c =>
                 c.quiz_id == quiz_id && c.username == username) },
           Except.ok ())

/-- Row of the `users` database table (fields read by the leaderboard). -/
structure UserRow where
  id : Nat
  username : String
deriving DecidableEq

/-- Row of the `quiz_results` database table (fields read by the
leaderboard).  `user_id` is a foreign key that SQLite does not enforce. -/
structure ResultRow where
  user_id : Nat
  score : Int
deriving DecidableEq

/-- One leaderboard entry of the response. -/
structure LBEntry where
  username : String
  total_score : Int
  quizzes_taken : Nat
  average_score : ℚ
deriving DecidableEq

/-- Inner join of `quiz_results` with `users` on
`QuizResult.user_id == User.id`, yielding (username, score) pairs; rows
whose `user_id` matches no user are dropped by the join. -/
def joinRows (users : List UserRow) (results : List ResultRow) : List (String × Int) :=
  results.filterMap (fun r =>
    (users.find? (fun u => u.id == r.user_id)).map (fun u => (u.username, r.score)))

/-- Distinct usernames of the joined rows in order of first appearance
(the GROUP BY keys). -/
def groupKeys (rows : List (String × Int)) : List String :=
  (rows.map Prod.fst).dedup

/-- Sum of the scores the joined rows record for `u` (SUM aggregate). -/
def scoreSum (rows : List (String × Int)) (u : String) : Int :=
  ((rows.filter (fun r => r.1 == u)).map Prod.snd).sum

/-- Number of joined rows for `u` (COUNT aggregate). -/
def scoreCount (rows : List (String × Int)) (u : String) : Nat :=
  (rows.filter (fun r => r.1 == u)).length

/-- Python's `round(x, 1)`, modelled over `ℚ` with `round` on the tenths. -/
def round1 (q : ℚ) : ℚ := (round (q * 10) : ℤ) / 10

/-- Leaderboard entry computed for one GROUP BY key. -/
def mkEntry (rows : List (String × Int)) (u : String) : LBEntry :=
  { username := u, total_score := scoreSum rows u,
    quizzes_taken := scoreCount rows u,
    average_score := round1 ((scoreSum rows u : ℚ) / (scoreCount rows u : ℚ)) }

/-- Descending order on summed score (ORDER BY SUM(score) DESC). -/
def lbGE (a b : LBEntry) : Prop := b.total_score ≤ a.total_score

instance : DecidableRel lbGE := fun a b =>
  inferInstanceAs (Decidable (b.total_score ≤ a.total_score))

instance : IsTotal LBEntry lbGE :=
  ⟨fun a b => le_total b.total_score a.total_score⟩

instance : IsTrans LBEntry lbGE :=
  ⟨fun _ _ _ hab hbc => le_trans hbc hab⟩

/-- Fixed illustrative dataset returned when the aggregation is empty. -/
def placeholderLeaderboard : List LBEntry :=
  [{ username := "admin", total_score := 100, quizzes_taken := 5, average_score := 85 },
   { username := "user1", total_score := 80, quizzes_taken := 4, average_score := 80 },
   { username := "user2", total_score := 60, quizzes_taken := 3, average_score := 75 }]

/-- GET /leaderboard.  Aggregates `quiz_results` joined to `users`,
grouped by username, ordered descending by summed score; when the
aggregation yields no rows (`if not leaderboard`), the fixed placeholder
dataset is returned instead. -/
def get_leaderboard (users : List UserRow) (results : List ResultRow) : List LBEntry :=
  let rows := joinRows users results
  let computed := List.insertionSort lbGE ((groupKeys rows).map (mkEntry rows))
  if computed.isEmpty then placeholderLeaderboard else computed

/-- One request against the in-memory state: any of the mutating
endpoint handlers applied with arbitrary parameters (the resulting state,
whether the call succeeded or raised). -/
inductive Step : AppState → AppState → Prop where
  | create (s : AppState) (qd : QuizInput) :
      Step s (create_quiz s qd).1
  | submit (s : AppState) (sub : QuizSubmission) (now : Nat) :
      Step s (submit_quiz s sub now).1
  | invite (s : AppState) (quiz_id : Nat) (inviter invitee role : String) (now : Nat) :
      Step s (invite_collaborator s quiz_id inviter invitee role now).1
  | respond (s : AppState) (invitation_id : Nat) (action username : String) (now : Nat) :
      Step s (respond_to_invitation s invitation_id action username now).1
  | remove (s : AppState) (quiz_id : Nat) (username remover_username : String) :
      Step s (remove_collaborator s quiz_id username remover_username).1

/-- States reachable from an initial state with the given quiz catalog and
attempt history and, as at module load, no collaborator rows and no
invitations, by any sequence of endpoint requests. -/
def Reachable (qs : List QuizD) (hist : List HistoryEntry) (s : AppState) : Prop :=
  Relation.ReflTransGen Step ⟨qs, hist, [], []⟩ s

/-! Collaboration-state invariants.  `pendingCount` and `rowCount` count,
for one (quiz, username) key, the pending invitations and the collaborator
rows held for that key; the central invariant is that their sum never
exceeds one. -/

/-- Number of pending invitations stored for the pair (q, u). -/
def pendingCount (invs : List Invitation) (q : Nat) (u : String) : Nat :=
  invs.countP (fun i => i.quiz_id == q && i.invitee == u && i.status == "pending")

/-- Number of collaborator rows stored for the pair (q, u). -/
def rowCount (cs : List Collaborator) (q : Nat) (u : String) : Nat :=
  cs.countP (fun c => c.quiz_id == q && c.username == u)

/-- Core collaboration invariant: for every (quiz, username) key, the
pending invitations and collaborator rows together number at most one. -/
def KeyInv (s : AppState) : Prop :=
  ∀ q u, pendingCount s.collaboration_invitations q u + rowCount s.quiz_collaborators q u ≤ 1

/-- Every stored collaborator row has status "active". -/
def ActiveInv (s : AppState) : Prop :=
  ∀ c ∈ s.quiz_collaborators, c.status = "active"

/-- Combined collaboration invariant. -/
def Inv (s : AppState) : Prop := KeyInv s ∧ ActiveInv s

/-! Generic lemmas about `updateFirst`. -/

theorem mem_updateFirst_of_ne {p : α → Bool} {f : α → α} {l : List α} {x y : α}
    (hf : l.find? p = some x) (hy : y ∈ l) (hne : y ≠ x) :
    y ∈ updateFirst p f l := by
  induction l with
  | nil => cases hy
  | cons h t ih =>
    by_cases hp : p h
    · rw [List.find?_cons_of_pos _ hp] at hf
      cases hf
      rcases List.mem_cons.mp hy with rfl | hyt
      · exact absurd rfl hne
      · simp [updateFirst, hp, List.mem_cons, hyt]
    · rw [List.find?_cons_of_neg _ hp] at hf
      rcases List.mem_cons.mp hy with rfl | hyt
      · simp [updateFirst, hp]
      · simp only [updateFirst, hp, if_neg, Bool.false_eq_true, not_false_eq_true,
          List.mem_cons]
        exact Or.inr (ih hf hyt)

theorem find?_updateFirst_self {p : α → Bool} {f : α → α} {l : List α} {x : α}
    (hf : l.find? p = some x) (hfx : p (f x) = true) :
    (updateFirst p f l).find? p = some (f x) := by
  induction l with
  | nil => cases hf
  | cons h t ih =>
    by_cases hp : p h
    · rw [List.find?_cons_of_pos _ hp] at hf
      cases hf
      simp [updateFirst, hp, List.find?_cons_of_pos _ hfx]
    · rw [List.find?_cons_of_neg _ hp] at hf
      simp [updateFirst, hp, List.find?_cons_of_neg _ hp, ih hf]

theorem length_filter_updateFirst_le {p pk : α → Bool} {f : α → α} (l : List α)
    (hfk : ∀ x, pk (f x) = false) :
    (updateFirst p f l).countP pk ≤ l.countP pk := by
  induction l with
  | nil => simp [updateFirst]
  | cons h t ih =>
    simp only [updateFirst]
    by_cases hp : p h = true
    · rw [if_pos hp]
      simp [List.countP_cons, hfk h]
    · rw [if_neg hp]
      simp only [List.countP_cons]
      omega

theorem length_filter_updateFirst_eq {p pk : α → Bool} {f : α → α} {l : List α} {x : α}
    (hf : l.find? p = some x) (hkx : pk x = true) (hfk : ∀ y, pk (f y) = false) :
    (updateFirst p f l).countP pk + 1 = l.countP pk := by
  induction l with
  | nil => cases hf
  | cons h t ih =>
    simp only [updateFirst]
    by_cases hp : p h = true
    · rw [List.find?_cons_of_pos _ hp] at hf
      cases hf
      rw [if_pos hp]
      simp [List.countP_cons, hfk, hkx]
    · rw [List.find?_cons_of_neg _ hp] at hf
      rw [if_neg hp]
      simp only [List.countP_cons]
      have := ih hf
      omega

theorem countP_eq_zero_of_find?_eq_none {p : α → Bool} {l : List α}
    (h : l.find? p = none) : l.countP p = 0 := by
  rw [List.countP_eq_zero]
  exact fun a ha => by
    have := List.find?_eq_none.mp h a ha
    simpa using this

/-! State-shape lemmas for the individual handlers. -/

theorem submit_quiz_fst (s : AppState) (sub : QuizSubmission) (now : Nat) :
    (submit_quiz s sub now).1 = s := by
  unfold submit_quiz
  cases s.quizzes.find? (fun q => q.id == sub.quiz_id) with
  | none => rfl
  | some quiz =>
    dsimp only
    cases gradeLoop quiz.questions sub.answers 0 with
    | error e => rfl
    | ok out =>
      dsimp only
      split <;> rfl

theorem create_quiz_collab (s : AppState) (qd : QuizInput) :
    (create_quiz s qd).1.quiz_collaborators = s.quiz_collaborators ∧
    (create_quiz s qd).1.collaboration_invitations = s.collaboration_invitations := by
  unfold create_quiz
  dsimp only
  split
  · exact ⟨rfl, rfl⟩
  · split <;> exact ⟨rfl, rfl⟩

theorem eq_none_of_not_isSome {o : Option α} (h : ¬ o.isSome = true) : o = none := by
  cases o with
  | none => rfl
  | some x => simp at h

/-- Appending one fresh pending invitation preserves the key invariant when
no pending invitation and no collaborator row existed for its key. -/
theorem keyinv_append_pending (invs : List Invitation) (rows : List Collaborator)
    (hkey : ∀ q u, pendingCount invs q u + rowCount rows q u ≤ 1)
    (x : Invitation) (hqz : x.status = "pending")
    (h2n : invs.find? (fun i =>
      i.quiz_id == x.quiz_id && i.invitee == x.invitee && i.status == "pending") = none)
    (h3n : rows.find? (fun c =>
      c.quiz_id == x.quiz_id && c.username == x.invitee) = none) :
    ∀ q u, pendingCount (invs ++ [x]) q u + rowCount rows q u ≤ 1 := by
  intro q u
  rw [pendingCount, List.countP_append]
  by_cases hk : x.quiz_id = q ∧ x.invitee = u
  · obtain ⟨hk1, hk2⟩ := hk
    subst hk1
    subst hk2
    have hp0 : List.countP (fun i =>
        i.quiz_id == x.quiz_id && i.invitee == x.invitee && i.status == "pending") invs = 0 :=
      countP_eq_zero_of_find?_eq_none h2n
    have hr0 : rowCount rows x.quiz_id x.invitee = 0 :=
      countP_eq_zero_of_find?_eq_none h3n
    have hx1 : List.countP (fun i =>
        i.quiz_id == x.quiz_id && i.invitee == x.invitee && i.status == "pending") [x] = 1 := by
      simp [List.countP_cons, hqz]
    rw [hp0, hx1, hr0]
  · have hx0 : List.countP (fun i =>
        i.quiz_id == q && i.invitee == u && i.status == "pending") [x] = 0 := by
      simp only [List.countP_cons, List.countP_nil]
      rcases not_and_or.mp hk with hne | hne <;> simp [beq_iff_eq, hne]
    rw [hx0]
    have := hkey q u
    rw [pendingCount] at this
    omega

theorem invite_preserves_Inv (s : AppState) (qid : Nat)
    (inviter invitee role : String) (now : Nat) (h : Inv s) :
    Inv (invite_collaborator s qid inviter invitee role now).1 := by
  obtain ⟨hkey, hact⟩ := h
  unfold invite_collaborator
  cases hq : s.quizzes.find? (fun q => q.id == qid) with
  | none => exact ⟨hkey, hact⟩
  | some quiz =>
    dsimp only
    cases hcr : creatorKey quiz with
    | error e => exact ⟨hkey, hact⟩
    | ok cr =>
      dsimp only
      split_ifs with h1 h2 h3
      · exact ⟨hkey, hact⟩
      · exact ⟨hkey, hact⟩
      · exact ⟨hkey, hact⟩
      · refine ⟨?_, hact⟩
        exact keyinv_append_pending s.collaboration_invitations s.quiz_collaborators
          hkey _ rfl (eq_none_of_not_isSome h2) (eq_none_of_not_isSome h3)

theorem respond_preserves_Inv (s : AppState) (iid : Nat)
    (action username : String) (now : Nat) (h : Inv s) :
    Inv (respond_to_invitation s iid action username now).1 := by
  obtain ⟨hkey, hact⟩ := h
  unfold respond_to_invitation
  cases hf : s.collaboration_invitations.find? (fun i => i.id == iid) with
  | none => exact ⟨hkey, hact⟩
  | some inv =>
    dsimp only
    split_ifs with h1 h2 h3
    · exact ⟨hkey, hact⟩
    · exact ⟨hkey, hact⟩
    · -- accept: the pending invitation becomes "accepted" and one active
      -- collaborator row for its (quiz, invitee) key is appended
      have hinvitee : inv.invitee = username := by
        simpa using h1
      have hpend : inv.status = "pending" := by
        simpa using h2
      constructor
      · intro q u
        show List.countP _ (updateFirst _ _ _) + rowCount (_ ++ [_]) q u ≤ 1
        rw [rowCount, List.countP_append]
        by_cases hk : inv.quiz_id = q ∧ inv.invitee = u
        · obtain ⟨hk1, hk2⟩ := hk
          subst hk1
          subst hk2
          have hdec : List.countP (fun i =>
              i.quiz_id == inv.quiz_id && i.invitee == inv.invitee && i.status == "pending")
              (updateFirst (fun i => i.id == iid)
                (fun i => { i with status := "accepted", responded_at := some now })
                s.collaboration_invitations) + 1 =
              List.countP (fun i =>
                i.quiz_id == inv.quiz_id && i.invitee == inv.invitee && i.status == "pending")
                s.collaboration_invitations := by
            refine length_filter_updateFirst_eq hf ?_ ?_
            · simp [hpend]
            · intro y
              simp
          have hcol : List.countP (fun c =>
              c.quiz_id == inv.quiz_id && c.username == inv.invitee)
              [({ quiz_id := inv.quiz_id, username := username, role := inv.role,
                  status := "active", invited_by := inv.inviter,
                  invited_at := inv.created_at, joined_at := now } : Collaborator)] = 1 := by
            simp [List.countP_cons, hinvitee]
          rw [hcol]
          have := hkey inv.quiz_id inv.invitee
          rw [pendingCount, rowCount] at this
          omega
        · have hle : List.countP (fun i =>
              i.quiz_id == q && i.invitee == u && i.status == "pending")
              (updateFirst (fun i => i.id == iid)
                (fun i => { i with status := "accepted", responded_at := some now })
                s.collaboration_invitations) ≤
              List.countP (fun i =>
                i.quiz_id == q && i.invitee == u && i.status == "pending")
                s.collaboration_invitations := by
            refine length_filter_updateFirst_le _ ?_
            intro y
            simp
          have hcol : List.countP (fun c =>
              c.quiz_id == q && c.username == u)
              [({ quiz_id := inv.quiz_id, username := username, role := inv.role,
                  status := "active", invited_by := inv.inviter,
                  invited_at := inv.created_at, joined_at := now } : Collaborator)] = 0 := by
            simp only [List.countP_cons, List.countP_nil]
            rcases not_and_or.mp hk with hne | hne
            · simp [beq_iff_eq, hne]
            · rw [hinvitee] at hne
              simp [beq_iff_eq, hne]
          rw [hcol]
          have := hkey q u
          rw [pendingCount, rowCount] at this
          omega
      · intro c hc
        rcases List.mem_append.mp hc with hcl | hcr
        · exact hact c hcl
        · rw [List.mem_singleton.mp hcr]
    · -- decline: only the invitation status changes
      constructor
      · intro q u
        dsimp only [KeyInv, pendingCount, rowCount]
        have hle : List.countP (fun i =>
            i.quiz_id == q && i.invitee == u && i.status == "pending")
            (updateFirst (fun i => i.id == iid)
              (fun i => { i with status := "declined", responded_at := some now })
              s.collaboration_invitations) ≤
            List.countP (fun i =>
              i.quiz_id == q && i.invitee == u && i.status == "pending")
              s.collaboration_invitations := by
          refine length_filter_updateFirst_le _ ?_
          intro y
          simp
        have := hkey q u
        rw [pendingCount, rowCount] at this
        omega
      · exact hact

theorem remove_preserves_Inv (s : AppState) (qid : Nat)
    (username remover_username : String) (h : Inv s) :
    Inv (remove_collaborator s qid username remover_username).1 := by
  obtain ⟨hkey, hact⟩ := h
  unfold remove_collaborator
  cases hq : s.quizzes.find? (fun q => q.id == qid) with
  | none => exact ⟨hkey, hact⟩
  | some quiz =>
    dsimp only
    cases hcr : creatorKey quiz with
    | error e => exact ⟨hkey, hact⟩
    | ok cr =>
      dsimp only
      split_ifs with h1 h2
      · exact ⟨hkey, hact⟩
      · exact ⟨hkey, hact⟩
      · cases hfc : s.quiz_collaborators.find? (fun c =>
            c.quiz_id == qid && c.username == username) with
        | none => exact ⟨hkey, hact⟩
        | some c =>
          dsimp only
          constructor
          · intro q u
            dsimp only [KeyInv, pendingCount, rowCount]
            have hsub : (s.quiz_collaborators.eraseP (fun c =>
                c.quiz_id == qid && c.username == username)).countP
                (fun c => c.quiz_id == q && c.username == u) ≤
                s.quiz_collaborators.countP (fun c => c.quiz_id == q && c.username == u) :=
              (List.eraseP_sublist _).countP_le _
            have := hkey q u
            rw [pendingCount, rowCount] at this
            omega
          · intro c' hc'
            exact hact c' (List.mem_of_mem_eraseP hc')

/-! Scoring-loop lemmas. -/

theorem gradeLoop_spec (qs : List QuestionD) : ∀ (al : List AnswerD) (i : Nat),
    i + al.length ≤ qs.length →
    ∃ c ds, gradeLoop qs al i = Except.ok (c, ds) ∧
      ds.length = al.length ∧
      c = (ds.filter (fun d => d.is_correct)).length ∧
      ∀ j (hj : j < al.length) (hd : j < ds.length) (hq : i + j < qs.length),
        (ds.get ⟨j, hd⟩).is_correct =
          ((al.get ⟨j, hj⟩).answer == (qs.get ⟨i + j, hq⟩).correct) := by
  intro al
  induction al with
  | nil =>
    intro i _
    refine ⟨0, [], rfl, rfl, rfl, ?_⟩
    intro j hj
    cases hj
  | cons a rest ih =>
    intro i hlen
    have hi : i < qs.length := by
      simp only [List.length_cons] at hlen
      omega
    have hrest : (i + 1) + rest.length ≤ qs.length := by
      simp only [List.length_cons] at hlen
      omega
    obtain ⟨c, ds, hgl, hdlen, hcnt, hidx⟩ := ih (i + 1) hrest
    have hget : qs.get? i = some (qs.get ⟨i, hi⟩) := List.get?_eq_get hi
    refine ⟨(if a.answer == (qs.get ⟨i, hi⟩).correct then 1 else 0) + c,
      { question := (qs.get ⟨i, hi⟩).question, your_answer := a,
        correct_answer := (qs.get ⟨i, hi⟩).correct,
        is_correct := a.answer == (qs.get ⟨i, hi⟩).correct,
        options := (qs.get ⟨i, hi⟩).options } :: ds, ?_, ?_, ?_, ?_⟩
    · rw [gradeLoop, hget, hgl]
    · simp [hdlen]
    · cases hb : (a.answer == (qs.get ⟨i, hi⟩).correct) with
      | false =>
        simp [List.filter_cons, hb, hcnt]
      | true =>
        simp only [List.filter_cons, hb, if_pos, List.length_cons]
        omega
    · intro j hj hd hq
      cases j with
      | zero => rfl
      | succ j' =>
        have hj' : j' < rest.length := by
          simpa using hj
        have hd' : j' < ds.length := by
          simp only [List.length_cons] at hd
          omega
        have hq' : i + 1 + j' < qs.length := by omega
        have hfin : (⟨i + (j' + 1), hq⟩ : Fin qs.length) = ⟨i + 1 + j', hq'⟩ := by
          rw [Fin.mk.injEq]
          omega
        show (ds.get ⟨j', hd'⟩).is_correct =
          ((rest.get ⟨j', hj'⟩).answer == (qs.get ⟨i + (j' + 1), hq⟩).correct)
        rw [hfin]
        exact hidx j' hj' hd' hq'

theorem gradeLoop_overflow (qs : List QuestionD) : ∀ (al : List AnswerD) (i : Nat),
    al ≠ [] → qs.length < i + al.length →
    gradeLoop qs al i = Except.error Err.indexError := by
  intro al
  induction al with
  | nil => intro i h _; exact absurd rfl h
  | cons a rest ih =>
    intro i _ hlen
    by_cases hi : qs.length ≤ i
    · have hnone : qs.get? i = none := List.get?_eq_none.mpr hi
      rw [gradeLoop, hnone]
    · have hi' : i < qs.length := lt_of_not_le hi
      have hget : qs.get? i = some (qs.get ⟨i, hi'⟩) := List.get?_eq_get hi'
      have hrest : rest ≠ [] := by
        intro hr
        rw [hr] at hlen
        simp at hlen
        omega
      have hlen' : qs.length < (i + 1) + rest.length := by
        simp only [List.length_cons] at hlen
        omega
      rw [gradeLoop, hget, ih (i + 1) hrest hlen']

/-! Behaviour of `respond_to_invitation` on a pending invitation. -/

theorem respond_accept_spec (s : AppState) (iid : Nat) (username : String) (now : Nat)
    (inv : Invitation)
    (hf : s.collaboration_invitations.find? (fun i => i.id == iid) = some inv)
    (hiv : inv.invitee = username) (hpend : inv.status = "pending") :
    respond_to_invitation s iid "accept" username now =
      ({ s with
          collaboration_invitations := updateFirst (fun i => i.id == iid)
            (fun i => { i with status := "accepted", responded_at := some now })
            s.collaboration_invitations,
          quiz_collaborators := s.quiz_collaborators ++
            [{ quiz_id := inv.quiz_id, username := username, role := inv.role,
               status := "active", invited_by := inv.inviter,
               invited_at := inv.created_at, joined_at := now }] },
       Except.ok (RespondOutcome.accepted
         { quiz_id := inv.quiz_id, username := username, role := inv.role,
           status := "active", invited_by := inv.inviter,
           invited_at := inv.created_at, joined_at := now })) := by
  unfold respond_to_invitation
  rw [hf]
  dsimp only
  rw [if_neg (by simp [hiv]), if_neg (by simp [hpend])]
  rfl

theorem respond_nonaccept_spec (s : AppState) (iid : Nat) (action username : String)
    (now : Nat) (inv : Invitation) (haction : action ≠ "accept")
    (hf : s.collaboration_invitations.find? (fun i => i.id == iid) = some inv)
    (hiv : inv.invitee = username) (hpend : inv.status = "pending") :
    respond_to_invitation s iid action username now =
      ({ s with
          collaboration_invitations := updateFirst (fun i => i.id == iid)
            (fun i => { i with status := "declined", responded_at := some now })
            s.collaboration_invitations },
       Except.ok RespondOutcome.declined) := by
  unfold respond_to_invitation
  rw [hf]
  dsimp only
  rw [if_neg (by simp [hiv]), if_neg (by simp [hpend])]
  have hb : (action == "accept") = false := by
    simpa using haction
  rw [hb]
  rfl

/-- Responding to a non-pending invitation always fails with the 400
"already responded" error and leaves the state unchanged. -/
theorem respond_nonpending_spec (s : AppState) (iid : Nat) (action username : String)
    (now : Nat) (inv : Invitation)
    (hf : s.collaboration_invitations.find? (fun i => i.id == iid) = some inv)
    (hiv : inv.invitee = username) (hpend : inv.status ≠ "pending") :
    respond_to_invitation s iid action username now =
      (s, Except.error (Err.http 400 "Invitation already responded to")) := by
  unfold respond_to_invitation
  rw [hf]
  dsimp only
  rw [if_neg (by simp [hiv]), if_pos (by simp [hpend])]

/-! Which handlers touch the invitation list, and how. -/

theorem remove_invs_eq (s : AppState) (qid : Nat) (username remover_username : String) :
    (remove_collaborator s qid username remover_username).1.collaboration_invitations =
      s.collaboration_invitations := by
  unfold remove_collaborator
  cases s.quizzes.find? (fun q => q.id == qid) with
  | none => rfl
  | some quiz =>
    dsimp only
    cases creatorKey quiz with
    | error e => rfl
    | ok cr =>
      dsimp only
      split_ifs
      · rfl
      · rfl
      · cases s.quiz_collaborators.find? (fun c =>
            c.quiz_id == qid && c.username == username) with
        | none => rfl
        | some c => rfl

theorem invite_invs_mono (s : AppState) (qid : Nat)
    (inviter invitee role : String) (now : Nat) {j : Invitation}
    (hj : j ∈ s.collaboration_invitations) :
    j ∈ (invite_collaborator s qid inviter invitee role now).1.collaboration_invitations := by
  unfold invite_collaborator
  cases s.quizzes.find? (fun q => q.id == qid) with
  | none => exact hj
  | some quiz =>
    dsimp only
    cases creatorKey quiz with
    | error e => exact hj
    | ok cr =>
      dsimp only
      split_ifs
      · exact hj
      · exact hj
      · exact hj
      · exact List.mem_append_left _ hj

theorem respond_nonpending_mem (s : AppState) (iid : Nat) (action username : String)
    (now : Nat) {j : Invitation} (hj : j ∈ s.collaboration_invitations)
    (hjst : j.status ≠ "pending") :
    j ∈ (respond_to_invitation s iid action username now).1.collaboration_invitations := by
  unfold respond_to_invitation
  cases hf : s.collaboration_invitations.find? (fun i => i.id == iid) with
  | none => exact hj
  | some inv =>
    dsimp only
    split_ifs with h1 h2 h3
    · exact hj
    · exact hj
    · have hpend : inv.status = "pending" := by
        simpa using h2
      have hne : j ≠ inv := fun h => hjst (h ▸ hpend)
      exact mem_updateFirst_of_ne hf hj hne
    · have hpend : inv.status = "pending" := by
        simpa using h2
      have hne : j ≠ inv := fun h => hjst (h ▸ hpend)
      exact mem_updateFirst_of_ne hf hj hne

/-- Accepted and declined are terminal: a non-pending invitation survives
every request, with its value (in particular its status) unchanged. -/
theorem step_nonpending_persists {s1 s2 : AppState} (hstep : Step s1 s2)
    {j : Invitation} (hj : j ∈ s1.collaboration_invitations)
    (hjst : j.status ≠ "pending") : j ∈ s2.collaboration_invitations := by
  cases hstep with
  | create qd =>
    rw [(create_quiz_collab s1 qd).2]
    exact hj
  | submit sub now =>
    rw [submit_quiz_fst]
    exact hj
  | invite qid inviter invitee role now =>
    exact invite_invs_mono s1 qid inviter invitee role now hj
  | respond iid action username now =>
    exact respond_nonpending_mem s1 iid action username now hj hjst
  | remove qid username remover =>
    rw [remove_invs_eq]
    exact hj

/-- Every request handler preserves the collaboration invariant. -/
theorem step_preserves_Inv {s s' : AppState} (hstep : Step s s') (h : Inv s) :
    Inv s' := by
  cases hstep with
  | create qd =>
    obtain ⟨hkey, hact⟩ := h
    obtain ⟨hc, hi⟩ := create_quiz_collab s qd
    constructor
    · intro q u
      rw [hc, hi]
      exact hkey q u
    · intro c hcm
      exact hact c (hc ▸ hcm)
  | submit sub now =>
    rw [submit_quiz_fst]
    exact h
  | invite qid inviter invitee role now =>
    exact invite_preserves_Inv s qid inviter invitee role now h
  | respond iid action username now =>
    exact respond_preserves_Inv s iid action username now h
  | remove qid username remover =>
    exact remove_preserves_Inv s qid username remover h

/-- The collaboration invariant holds in every reachable state. -/
theorem reachable_Inv {qs : List QuizD} {hist : List HistoryEntry} {s : AppState}
    (h : Reachable qs hist s) : Inv s := by
  induction h with
  | refl =>
    constructor
    · intro q u
      simp [pendingCount, rowCount]
    · intro c hc
      simp at hc
  | tail _ hstep ih => exact step_preserves_Inv hstep ih

/-! Concrete fixtures (mirroring tests/test_quizzes.py). -/

/-- Math Quiz payload of test_submit_quiz, with a creator name supplied. -/
def mathQuizInput : QuizInput :=
  { title := "Math Quiz", description := "Simple Math", category := "Math",
    difficulty := "Easy", time_limit := 60,
    questions := [{ question := "1+1?", options := ["1", "2", "3", "4"], correct := "B" },
                  { question := "2+2?", options := ["3", "4", "5", "6"], correct := "B" }],
    created_by := some "alice" }

/-- Empty module-load state: all four global lists empty. -/
def s0 : AppState := { quizzes := [], quiz_history := [], quiz_collaborators := [],
                       collaboration_invitations := [] }

/-- State after POST /create-quiz with the Math Quiz payload. -/
def s1 : AppState := (create_quiz s0 mathQuizInput).1

/-- Submission of test_submit_quiz: answers B (correct) and A (wrong). -/
def subBA : QuizSubmission :=
  { quiz_id := 1, username := "testuser",
    answers := [{ question_id := 0, answer := "B" }, { question_id := 0, answer := "A" }],
    time_taken := 30 }

/-- Quiz record carrying a "creator" key, as the collaboration endpoints
expect quiz dicts to look. -/
def quizWithCreator : QuizD :=
  { id := 1, title := "Owner Quiz", description := "d", category := "General",
    difficulty := "Easy", time_limit := 60,
    questions := [{ question := "Q?", options := ["x", "y"], correct := "A" }],
    created_by := "alice", creator := some "alice" }

/-- State whose catalog holds `quizWithCreator` and nothing else. -/
def s2 : AppState := { quizzes := [quizWithCreator], quiz_history := [],
                       quiz_collaborators := [], collaboration_invitations := [] }

/-- State after the creator invites themself to their own quiz. -/
def s2a : AppState := (invite_collaborator s2 1 "alice" "alice" "editor" 0).1

/-- State after the creator accepts their own invitation. -/
def s2b : AppState := (respond_to_invitation s2a 1 "accept" "alice" 1).1

/-- Quiz record whose question sequence is empty. -/
def emptyQuiz : QuizD :=
  { id := 1, title := "Empty", description := "d", category := "General",
    difficulty := "Easy", time_limit := 60, questions := [],
    created_by := "alice", creator := some "alice" }

/-- State whose catalog holds only the empty quiz. -/
def sE : AppState := { quizzes := [emptyQuiz], quiz_history := [],
                       quiz_collaborators := [], collaboration_invitations := [] }

/-! Leaderboard characterization. -/

theorem get_leaderboard_of_join_ne_nil (users : List UserRow) (results : List ResultRow)
    (hne : joinRows users results ≠ []) :
    get_leaderboard users results =
      List.insertionSort lbGE ((groupKeys (joinRows users results)).map
        (mkEntry (joinRows users results))) := by
  have hkeys : groupKeys (joinRows users results) ≠ [] := by
    intro h
    rw [groupKeys] at h
    exact hne (List.map_eq_nil_iff.mp ((List.dedup_eq_nil _).mp h))
  have hmap : (groupKeys (joinRows users results)).map
      (mkEntry (joinRows users results)) ≠ [] := by
    intro h
    exact hkeys (List.map_eq_nil_iff.mp h)
  have hsort : List.insertionSort lbGE ((groupKeys (joinRows users results)).map
      (mkEntry (joinRows users results))) ≠ [] := by
    intro h
    have hp := List.perm_insertionSort lbGE ((groupKeys (joinRows users results)).map
      (mkEntry (joinRows users results)))
    rw [h] at hp
    exact hmap hp.symm.eq_nil
  unfold get_leaderboard
  dsimp only
  rw [if_neg ?_]
  rw [Ne, ← List.isEmpty_iff] at hsort
  simpa using hsort

/-- Quiz record that `create_quiz` stores for `mathQuizInput`: the key
"created_by" is present, the key "creator" is not. -/
def mathQuiz : QuizD :=
  { id := 1, title := "Math Quiz", description := "Simple Math", category := "Math",
    difficulty := "Easy", time_limit := 60,
    questions := [{ question := "1+1?", options := ["1", "2", "3", "4"], correct := "B" },
                  { question := "2+2?", options := ["3", "4", "5", "6"], correct := "B" }],
    created_by := "alice", creator := none }

/-- Detailed result of the first Math Quiz answer (correct). -/
def mathDetailed1 : DetailedResult :=
  { question := "1+1?", your_answer := { question_id := 0, answer := "B" },
    correct_answer := "B", is_correct := true, options := ["1", "2", "3", "4"] }

/-- Detailed result of the second Math Quiz answer (wrong). -/
def mathDetailed2 : DetailedResult :=
  { question := "2+2?", your_answer := { question_id := 0, answer := "A" },
    correct_answer := "B", is_correct := false, options := ["3", "4", "5", "6"] }

/-- Evaluating the Math Quiz scenario: submission [B, A] scores 50.0 with
correct=1, total=2 and the expected per-question detail. -/
theorem submit_scenario_eq : (submit_quiz s1 subBA 0).2 =
    Except.ok { score := 50, correct := 1, total := 2,
                detailed_results := [mathDetailed1, mathDetailed2] } := by
  have hstep : (submit_quiz s1 subBA 0).2 =
      Except.ok { score := (((1 : Nat) : ℚ) / ((2 : Nat) : ℚ)) * 100, correct := 1,
                  total := 2, detailed_results := [mathDetailed1, mathDetailed2] } := rfl
  rw [hstep]
  norm_num

/-- State after the creator invites "bob" to the owner quiz. -/
def s3 : AppState := (invite_collaborator s2 1 "alice" "bob" "editor" 0).1

/-- The pending invitation stored in `s3`. -/
def pendingInv : Invitation :=
  { id := 1, quiz_id := 1, inviter := "alice", invitee := "bob", role := "editor",
    status := "pending", created_at := 0, quiz_title := "Owner Quiz",
    responded_at := none }

/-! Claim theorems. -/

/-- Claim C1 (code_bug evidence): the claim says a successful submit appends
the attempt to the shared attempt history that the analytics and user-history
readers consume.  In the code, `submit_quiz` rebinds `leaderboard` and
`quiz_history` as fresh local lists (app.py lines 349-350) and appends only
to those, so the module-level `quiz_history` is unchanged: after a successful
Math Quiz submission the global history is still empty and
GET /quiz-history/testuser returns no attempts. -/
theorem submit_discards_attempt_history :
    (create_quiz s0 mathQuizInput).2 = Except.ok 1 ∧
    (submit_quiz s1 subBA 0).2 =
      Except.ok { score := 50, correct := 1, total := 2,
                  detailed_results := [mathDetailed1, mathDetailed2] } ∧
    (submit_quiz s1 subBA 0).1 = s1 ∧
    s1.quiz_history = [] ∧
    get_quiz_history (submit_quiz s1 subBA 0).1 "testuser" = [] :=
  ⟨rfl, submit_scenario_eq, rfl, rfl, rfl⟩

/-- Claim C2 (code_bug evidence): the claim says invite and remove fail with
PermissionDenied (403) for any unauthorized caller.  In the code both
handlers evaluate `quiz["creator"]`, but `create_quiz` stores the creator
under the key "created_by" and never stores "creator", so for every quiz in
the catalog and EVERY caller (authorized or not) both operations raise
KeyError — an unhandled 500, not a 403 — leaving the state unchanged. -/
theorem collaboration_reads_missing_creator_key :
    ∀ (caller target role : String) (now : Nat),
      invite_collaborator s1 1 caller target role now =
        (s1, Except.error (Err.keyError "creator")) ∧
      remove_collaborator s1 1 target caller =
        (s1, Except.error (Err.keyError "creator")) :=
  fun _ _ _ _ => ⟨rfl, rfl⟩

/-- Claim C3 counterexample: the claim says removing the creator always
fails with InvalidOperation (400 "Cannot remove quiz owner") regardless of
the requester's role.  The permission check runs FIRST, so an unauthorized
requester ("mallory", no collaborator row) gets 403 Insufficient
permissions, not the 400 owner error. -/
theorem remove_owner_unauthorized_gets_403 :
    remove_collaborator s2 1 "alice" "mallory" =
      (s2, Except.error (Err.http 403 "Insufficient permissions")) ∧
    Err.http 403 "Insufficient permissions" ≠ Err.http 400 "Cannot remove quiz owner" :=
  ⟨rfl, by decide⟩

/-- Claim C3 amended: for a quiz whose record carries a "creator" key,
a requester that passes the permission check (the creator themself, or an
admin-role collaborator of the quiz) attempting to remove the creator fails
with InvalidOperation (400 "Cannot remove quiz owner") and the state is
unchanged; requesters that fail the permission check get 403 instead. -/
theorem remove_owner_authorized_invalid_operation (s : AppState) (qid : Nat)
    (requester : String) (quiz : QuizD) (cr : String)
    (hq : s.quizzes.find? (fun q => q.id == qid) = some quiz)
    (hcr : quiz.creator = some cr)
    (hperm : requester = cr ∨ ∃ c ∈ s.quiz_collaborators,
      c.quiz_id = qid ∧ c.username = requester ∧ c.role = "admin") :
    remove_collaborator s qid cr requester =
      (s, Except.error (Err.http 400 "Cannot remove quiz owner")) := by
  unfold remove_collaborator
  rw [hq]
  dsimp only
  rw [creatorKey, hcr]
  dsimp only
  have hcond : ((cr != requester) && (s.quiz_collaborators.find? (fun c =>
      c.quiz_id == qid && c.username == requester && c.role == "admin")).isNone) = false := by
    rcases hperm with rfl | ⟨c, hc, hcq, hcu, hcr2⟩
    · simp
    · have hs : (s.quiz_collaborators.find? (fun c =>
          c.quiz_id == qid && c.username == requester && c.role == "admin")).isSome = true :=
        List.find?_isSome.mpr ⟨c, hc, by simp [hcq, hcu, hcr2]⟩
      obtain ⟨x, hx⟩ := Option.isSome_iff_exists.mp hs
      rw [hx]
      simp
  rw [if_neg (by simp [hcond]), if_pos (by simp)]

/-- Claim C3 amended, witness: the creator "alice" of the owner quiz tries
to remove themself and gets the 400 owner error. -/
theorem remove_owner_authorized_invalid_operation_witness :
    (s2.quizzes.find? (fun q => q.id == 1) = some quizWithCreator ∧
     quizWithCreator.creator = some "alice") ∧
    remove_collaborator s2 1 "alice" "alice" =
      (s2, Except.error (Err.http 400 "Cannot remove quiz owner")) :=
  ⟨⟨rfl, rfl⟩, remove_owner_authorized_invalid_operation s2 1 "alice" quizWithCreator
    "alice" rfl rfl (Or.inl rfl)⟩

/-- Claim C4 counterexample: the claim says grading a zero-question quiz
fails with EmptyQuizError (a division-by-zero guard).  No such guard or
error class exists in the code: `score = (correct_answers / total_questions)
* 100` raises an unhandled ZeroDivisionError (surfacing as a 500), not any
classified HTTPException. -/
theorem empty_quiz_division_crash :
    submit_quiz sE { quiz_id := 1, username := "u", answers := [], time_taken := 0 } 0 =
      (sE, Except.error Err.zeroDivision) := rfl

/-- Claim C4 amended: grading an empty submission against a quiz whose
question sequence is empty raises an unhandled ZeroDivisionError (there is
no EmptyQuizError guard), leaving the state unchanged. -/
theorem submit_empty_quiz_zero_division (s : AppState) (sub : QuizSubmission)
    (now : Nat) (quiz : QuizD)
    (hq : s.quizzes.find? (fun q => q.id == sub.quiz_id) = some quiz)
    (hempty : quiz.questions = []) (hans : sub.answers = []) :
    submit_quiz s sub now = (s, Except.error Err.zeroDivision) := by
  unfold submit_quiz
  rw [hq]
  dsimp only
  rw [hans]
  show (match gradeLoop quiz.questions [] 0 with
    | Except.error e => (s, Except.error e)
    | Except.ok out => _) = _
  rw [show gradeLoop quiz.questions [] 0 = Except.ok (0, []) from rfl]
  dsimp only
  rw [if_pos (by rw [hempty]; rfl)]

/-- Claim C4 amended, witness: the concrete empty quiz with an empty
submission hits the unhandled division by zero. -/
theorem submit_empty_quiz_zero_division_witness :
    (sE.quizzes.find? (fun q => q.id == 1) = some emptyQuiz ∧
     emptyQuiz.questions = []) ∧
    submit_quiz sE { quiz_id := 1, username := "u", answers := [], time_taken := 0 } 1 =
      (sE, Except.error Err.zeroDivision) :=
  ⟨⟨rfl, rfl⟩, submit_empty_quiz_zero_division sE
    { quiz_id := 1, username := "u", answers := [], time_taken := 0 } 1 emptyQuiz
    rfl rfl rfl⟩

/-- Claim C5: grading matches answers to questions purely by position,
marks position j correct iff the submitted label equals (case-sensitive
string equality) question j's correct label, and returns total = n,
correct = number of positions marked correct, score = 100 * correct / n
(exact rational arithmetic standing in for Python float); and the Math Quiz
scenario [B, A] against correct answers [B, B] yields score 50.0,
correct = 1, total = 2 with detailed_results[0].is_correct = true and
detailed_results[1].is_correct = false. -/
theorem positional_grading_spec :
    (∀ (s : AppState) (sub : QuizSubmission) (now : Nat) (quiz : QuizD),
      s.quizzes.find? (fun q => q.id == sub.quiz_id) = some quiz →
      quiz.questions ≠ [] →
      sub.answers.length ≤ quiz.questions.length →
      ∃ r : ScoreResponse, (submit_quiz s sub now).2 = Except.ok r ∧
        r.total = quiz.questions.length ∧
        r.detailed_results.length = sub.answers.length ∧
        r.correct = (r.detailed_results.filter (fun d => d.is_correct)).length ∧
        r.score = 100 * (r.correct : ℚ) / (r.total : ℚ) ∧
        ∀ j (hj : j < sub.answers.length) (hd : j < r.detailed_results.length)
          (hqj : j < quiz.questions.length),
          (r.detailed_results.get ⟨j, hd⟩).is_correct =
            ((sub.answers.get ⟨j, hj⟩).answer ==
              (quiz.questions.get ⟨j, hqj⟩).correct)) ∧
    (submit_quiz s1 subBA 0).2 =
      Except.ok { score := 50, correct := 1, total := 2,
                  detailed_results := [mathDetailed1, mathDetailed2] } := by
  constructor
  · intro s sub now quiz hq hne hlen
    obtain ⟨c, ds, hgl, hdlen, hcnt, hidx⟩ :=
      gradeLoop_spec quiz.questions sub.answers 0 (by omega)
    refine ⟨{ score := ((c : ℚ) / (quiz.questions.length : ℚ)) * 100, correct := c,
              total := quiz.questions.length, detailed_results := ds }, ?_, rfl,
            hdlen, hcnt, ?_, ?_⟩
    · unfold submit_quiz
      rw [hq]
      dsimp only
      rw [hgl]
      dsimp only
      rw [if_neg (fun h => hne (List.length_eq_zero.mp h))]
    · show ((c : ℚ) / (quiz.questions.length : ℚ)) * 100 =
        100 * (c : ℚ) / (quiz.questions.length : ℚ)
      ring
    · intro j hj hd hqj
      have h0 : 0 + j < quiz.questions.length := by omega
      have hix := hidx j hj hd h0
      have hfin : (⟨0 + j, h0⟩ : Fin quiz.questions.length) = ⟨j, hqj⟩ := by
        rw [Fin.mk.injEq]
        omega
      rw [hix, hfin]
  · exact submit_scenario_eq

/-- Claim C5, witness: the general grading theorem instantiated on the Math
Quiz state with the [B, A] submission. -/
theorem positional_grading_spec_witness :
    (s1.quizzes.find? (fun q => q.id == subBA.quiz_id) = some mathQuiz ∧
     mathQuiz.questions ≠ [] ∧ subBA.answers.length ≤ mathQuiz.questions.length) ∧
    (∃ r : ScoreResponse, (submit_quiz s1 subBA 0).2 = Except.ok r ∧
      r.total = mathQuiz.questions.length ∧
      r.detailed_results.length = subBA.answers.length ∧
      r.correct = (r.detailed_results.filter (fun d => d.is_correct)).length ∧
      r.score = 100 * (r.correct : ℚ) / (r.total : ℚ) ∧
      ∀ j (hj : j < subBA.answers.length) (hd : j < r.detailed_results.length)
        (hqj : j < mathQuiz.questions.length),
        (r.detailed_results.get ⟨j, hd⟩).is_correct =
          ((subBA.answers.get ⟨j, hj⟩).answer ==
            (mathQuiz.questions.get ⟨j, hqj⟩).correct)) :=
  ⟨⟨rfl, by decide, by decide⟩,
   positional_grading_spec.1 s1 subBA 0 mathQuiz rfl (by decide) (by decide)⟩

/-- Claim C6: a pending invitation can be responded to exactly once:
accepting marks it "accepted" and appends one active collaborator row with
the invited role; declining marks it "declined" and leaves the collaborator
list unchanged; in either case a second response by the invitee fails with
InvalidStateError (400 "Invitation already responded to") and leaves the
state unchanged; and no request ever moves an invitation out of a
non-pending (accepted/declined) state — its record persists unchanged. -/
theorem invitation_single_response (s : AppState) (iid : Nat) (username : String)
    (now : Nat) (inv : Invitation)
    (hf : s.collaboration_invitations.find? (fun i => i.id == iid) = some inv)
    (hiv : inv.invitee = username) (hpend : inv.status = "pending") :
    ((respond_to_invitation s iid "accept" username now).2 = Except.ok
        (RespondOutcome.accepted
          { quiz_id := inv.quiz_id, username := username, role := inv.role,
            status := "active", invited_by := inv.inviter,
            invited_at := inv.created_at, joined_at := now }) ∧
      (respond_to_invitation s iid "accept" username now).1.quiz_collaborators =
        s.quiz_collaborators ++
          [{ quiz_id := inv.quiz_id, username := username, role := inv.role,
             status := "active", invited_by := inv.inviter,
             invited_at := inv.created_at, joined_at := now }] ∧
      (respond_to_invitation s iid "accept" username now).1.collaboration_invitations.find?
          (fun i => i.id == iid) =
        some { inv with status := "accepted", responded_at := some now } ∧
      ∀ (action2 : String) (now2 : Nat),
        respond_to_invitation (respond_to_invitation s iid "accept" username now).1
            iid action2 username now2 =
          ((respond_to_invitation s iid "accept" username now).1,
           Except.error (Err.http 400 "Invitation already responded to"))) ∧
    ((respond_to_invitation s iid "decline" username now).2 =
        Except.ok RespondOutcome.declined ∧
      (respond_to_invitation s iid "decline" username now).1.quiz_collaborators =
        s.quiz_collaborators ∧
      (respond_to_invitation s iid "decline" username now).1.collaboration_invitations.find?
          (fun i => i.id == iid) =
        some { inv with status := "declined", responded_at := some now } ∧
      ∀ (action2 : String) (now2 : Nat),
        respond_to_invitation (respond_to_invitation s iid "decline" username now).1
            iid action2 username now2 =
          ((respond_to_invitation s iid "decline" username now).1,
           Except.error (Err.http 400 "Invitation already responded to"))) ∧
    (∀ t1 t2 : AppState, Step t1 t2 → ∀ j ∈ t1.collaboration_invitations,
      j.status ≠ "pending" → j ∈ t2.collaboration_invitations) := by
  have hacc := respond_accept_spec s iid username now inv hf hiv hpend
  have hdec := respond_nonaccept_spec s iid "decline" username now inv
    (by decide) hf hiv hpend
  have hpinv := List.find?_some hf
  refine ⟨⟨?_, ?_, ?_, ?_⟩, ⟨?_, ?_, ?_, ?_⟩, ?_⟩
  · rw [hacc]
  · rw [hacc]
  · rw [hacc]
    dsimp only
    exact find?_updateFirst_self hf (by simpa using hpinv)
  · intro action2 now2
    have hf2 : (respond_to_invitation s iid "accept" username now).1.collaboration_invitations.find?
        (fun i => i.id == iid) =
        some { inv with status := "accepted", responded_at := some now } := by
      rw [hacc]
      dsimp only
      exact find?_updateFirst_self hf (by simpa using hpinv)
    exact respond_nonpending_spec _ iid action2 username now2 _ hf2
      (by simpa using hiv) (by simp)
  · rw [hdec]
  · rw [hdec]
  · rw [hdec]
    dsimp only
    exact find?_updateFirst_self hf (by simpa using hpinv)
  · intro action2 now2
    have hf2 : (respond_to_invitation s iid "decline" username now).1.collaboration_invitations.find?
        (fun i => i.id == iid) =
        some { inv with status := "declined", responded_at := some now } := by
      rw [hdec]
      dsimp only
      exact find?_updateFirst_self hf (by simpa using hpinv)
    exact respond_nonpending_spec _ iid action2 username now2 _ hf2
      (by simpa using hiv) (by simp)
  · intro t1 t2 hstep j hj hjst
    exact step_nonpending_persists hstep hj hjst

/-- Claim C6, witness: "bob" accepts the pending invitation of `s3` and the
expected collaborator row is produced. -/
theorem invitation_single_response_witness :
    (s3.collaboration_invitations.find? (fun i => i.id == 1) = some pendingInv ∧
     pendingInv.invitee = "bob" ∧ pendingInv.status = "pending") ∧
    (respond_to_invitation s3 1 "accept" "bob" 5).2 = Except.ok
      (RespondOutcome.accepted
        { quiz_id := 1, username := "bob", role := "editor", status := "active",
          invited_by := "alice", invited_at := 0, joined_at := 5 }) :=
  ⟨⟨rfl, rfl, rfl⟩,
   (invitation_single_response s3 1 "bob" 5 pendingInv rfl rfl rfl).1.1⟩

/-- Claim C9: for a pending invitation answered by its invitee, any action
string other than exactly "accept" — "decline", "banana", anything — marks
the invitation "declined" and returns the decline outcome; the action value
is never validated against the set accept/decline. -/
theorem respond_action_not_validated (s : AppState) (iid : Nat)
    (action username : String) (now : Nat) (inv : Invitation)
    (hf : s.collaboration_invitations.find? (fun i => i.id == iid) = some inv)
    (hiv : inv.invitee = username) (hpend : inv.status = "pending")
    (haction : action ≠ "accept") :
    (respond_to_invitation s iid action username now).2 =
      Except.ok RespondOutcome.declined ∧
    (respond_to_invitation s iid action username now).1.quiz_collaborators =
      s.quiz_collaborators ∧
    (respond_to_invitation s iid action username now).1.collaboration_invitations.find?
        (fun i => i.id == iid) =
      some { inv with status := "declined", responded_at := some now } := by
  have h := respond_nonaccept_spec s iid action username now inv haction hf hiv hpend
  refine ⟨by rw [h], by rw [h], ?_⟩
  rw [h]
  dsimp only
  exact find?_updateFirst_self hf (by simpa using List.find?_some hf)

/-- Claim C9, witness: the arbitrary action string "banana" declines the
pending invitation of `s3`. -/
theorem respond_action_not_validated_witness :
    (s3.collaboration_invitations.find? (fun i => i.id == 1) = some pendingInv ∧
     pendingInv.invitee = "bob" ∧ pendingInv.status = "pending" ∧
     "banana" ≠ "accept") ∧
    (respond_to_invitation s3 1 "banana" "bob" 5).2 =
      Except.ok RespondOutcome.declined :=
  ⟨⟨rfl, rfl, rfl, by decide⟩,
   (respond_action_not_validated s3 1 "banana" "bob" 5 pendingInv rfl rfl rfl
     (by decide)).1⟩

/-- Claim C10: when the submitted answer list is strictly longer than the
quiz's question list, the grading loop reads `quiz["questions"][i]` at a
position past the end with no bounds guard, so the request dies with an
unhandled IndexError (not a ScoreResult and not any HTTPException of the
error taxonomy), leaving the state unchanged. -/
theorem submit_excess_answers_index_error (s : AppState) (sub : QuizSubmission)
    (now : Nat) (quiz : QuizD)
    (hq : s.quizzes.find? (fun q => q.id == sub.quiz_id) = some quiz)
    (hlen : quiz.questions.length < sub.answers.length) :
    submit_quiz s sub now = (s, Except.error Err.indexError) := by
  have hne : sub.answers ≠ [] := by
    intro h
    rw [h] at hlen
    simp at hlen
  unfold submit_quiz
  rw [hq]
  dsimp only
  rw [gradeLoop_overflow quiz.questions sub.answers 0 hne (by omega)]

/-- Submission with three answers against the two-question Math Quiz. -/
def subLong : QuizSubmission :=
  { quiz_id := 1, username := "testuser",
    answers := [{ question_id := 0, answer := "B" },
                { question_id := 0, answer := "A" },
                { question_id := 0, answer := "B" }],
    time_taken := 30 }

/-- Claim C10, witness: three answers against the two-question Math Quiz
raise the unhandled IndexError. -/
theorem submit_excess_answers_index_error_witness :
    (s1.quizzes.find? (fun q => q.id == subLong.quiz_id) = some mathQuiz ∧
     mathQuiz.questions.length < subLong.answers.length) ∧
    submit_quiz s1 subLong 0 = (s1, Except.error Err.indexError) :=
  ⟨⟨rfl, by decide⟩,
   submit_excess_answers_index_error s1 subLong 0 mathQuiz rfl (by decide)⟩

/-- Claim C7 counterexample: the claim says the quiz creator is never
stored as a Collaborator row.  Nothing stops inviting the creator: starting
from a catalog holding the owner quiz (creator "alice") with no
collaborators and no invitations, the two-request trace
invite(1, alice, alice, editor) then respond(1, accept, alice) reaches a
state whose collaborator list stores a row for "alice" — the creator. -/
theorem creator_stored_as_collaborator_row :
    Reachable [quizWithCreator] [] s2b ∧
    quizWithCreator.creator = some "alice" ∧
    s2b.quiz_collaborators =
      [{ quiz_id := 1, username := "alice", role := "editor", status := "active",
         invited_by := "alice", invited_at := 0, joined_at := 1 }] := by
  refine ⟨?_, rfl, rfl⟩
  have h1 : Step s2 s2a := Step.invite s2 1 "alice" "alice" "editor" 0
  have h2 : Step s2a s2b := Step.respond s2a 1 "accept" "alice" 1
  exact Relation.ReflTransGen.tail
    (Relation.ReflTransGen.tail Relation.ReflTransGen.refl h1) h2

/-- Claim C7 amended: in every state reachable by any sequence of requests
from an initial state with an arbitrary catalog, no collaborator rows and
no invitations, there is at most one collaborator row per (quiz, username)
pair and every stored row has status "active" (so at most one ACTIVE row
per pair); but the creator CAN be stored as a collaborator row, since
invite does not exclude the quiz creator as invitee (see the
counterexample). -/
theorem collaborator_uniqueness_invariant (qs : List QuizD)
    (hist : List HistoryEntry) (s : AppState) (h : Reachable qs hist s) :
    (∀ (q : Nat) (u : String),
      (s.quiz_collaborators.filter (fun c => c.quiz_id == q && c.username == u)).length ≤ 1) ∧
    ∀ c ∈ s.quiz_collaborators, c.status = "active" := by
  obtain ⟨hkey, hact⟩ := reachable_Inv h
  refine ⟨fun q u => ?_, hact⟩
  have hk := hkey q u
  rw [pendingCount, rowCount] at hk
  simp only [List.countP_eq_length_filter] at hk
  omega

/-- Claim C7 amended, witness: the invariant instantiated at the empty
initial state, reachable by the empty request sequence. -/
theorem collaborator_uniqueness_invariant_witness :
    Reachable [] [] s0 ∧
    ((∀ (q : Nat) (u : String),
      (s0.quiz_collaborators.filter (fun c => c.quiz_id == q && c.username == u)).length ≤ 1) ∧
    ∀ c ∈ s0.quiz_collaborators, c.status = "active") :=
  ⟨Relation.ReflTransGen.refl,
   collaborator_uniqueness_invariant [] [] s0 Relation.ReflTransGen.refl⟩

/-- Claim C8 counterexample: the claim says that once at least one real
attempt has been recorded the placeholder no longer appears.  The
leaderboard aggregates quiz_results INNER-JOINED to users; an attempt row
whose user_id matches no user row (reachable, since POST /quiz-history
hardcodes user_id 1 and SQLite does not enforce the foreign key) leaves the
join empty, so the placeholder is still returned although the attempt
history is non-empty. -/
theorem leaderboard_placeholder_despite_attempt :
    get_leaderboard [] [{ user_id := 1, score := 80 }] = placeholderLeaderboard ∧
    ([({ user_id := 1, score := 80 } : ResultRow)] : List ResultRow) ≠ [] :=
  ⟨rfl, by decide⟩

/-- Claim C8 amended: the placeholder dataset is returned exactly when the
user-joined aggregation is empty: with zero recorded attempts it is always
returned; as soon as some attempt row joins to an existing user, the
computed per-user aggregates are returned instead — one entry per distinct
joined username, carrying that user's summed score, attempt count and
rounded average, ordered descending by summed score (attempt rows whose
user_id matches no user do not count). -/
theorem leaderboard_placeholder_iff_join_empty :
    (∀ users : List UserRow, get_leaderboard users [] = placeholderLeaderboard) ∧
    (∀ (users : List UserRow) (results : List ResultRow),
      (∃ r ∈ results, ∃ u ∈ users, u.id = r.user_id) →
      List.Sorted lbGE (get_leaderboard users results) ∧
      List.Perm ((get_leaderboard users results).map LBEntry.username)
        (groupKeys (joinRows users results)) ∧
      ∀ e ∈ get_leaderboard users results,
        e.total_score = scoreSum (joinRows users results) e.username ∧
        e.quizzes_taken = scoreCount (joinRows users results) e.username ∧
        e.average_score = round1 ((scoreSum (joinRows users results) e.username : ℚ) /
          (scoreCount (joinRows users results) e.username : ℚ)) ∧
        0 < scoreCount (joinRows users results) e.username) := by
  constructor
  · intro users
    rfl
  · intro users results hjoin
    have hne : joinRows users results ≠ [] := by
      obtain ⟨r, hr, u, hu, hid⟩ := hjoin
      intro hnil
      have hall := List.filterMap_eq_nil_iff.mp hnil r hr
      have hs : (users.find? (fun x => x.id == r.user_id)).isSome = true :=
        List.find?_isSome.mpr ⟨u, hu, by simp [hid]⟩
      obtain ⟨x, hx⟩ := Option.isSome_iff_exists.mp hs
      rw [hx] at hall
      simp at hall
    rw [get_leaderboard_of_join_ne_nil users results hne]
    refine ⟨List.sorted_insertionSort lbGE _, ?_, ?_⟩
    · have hperm := (List.perm_insertionSort lbGE
        ((groupKeys (joinRows users results)).map (mkEntry (joinRows users results)))).map
        LBEntry.username
      have hmapid : ((groupKeys (joinRows users results)).map
          (mkEntry (joinRows users results))).map LBEntry.username =
          groupKeys (joinRows users results) := by
        rw [List.map_map]
        simp [Function.comp_def, mkEntry]
      rw [hmapid] at hperm
      exact hperm
    · intro e he
      have hem : e ∈ (groupKeys (joinRows users results)).map
          (mkEntry (joinRows users results)) :=
        (List.perm_insertionSort lbGE _).mem_iff.mp he
      obtain ⟨u, hu, rfl⟩ := List.mem_map.mp hem
      refine ⟨rfl, rfl, rfl, ?_⟩
      rw [groupKeys] at hu
      have humem : u ∈ (joinRows users results).map Prod.fst := List.mem_dedup.mp hu
      obtain ⟨p, hp, hpu⟩ := List.mem_map.mp humem
      rw [scoreCount, show (mkEntry (joinRows users results) u).username = u from rfl]
      refine List.length_pos.mpr (List.ne_nil_of_mem (List.mem_filter.mpr ⟨hp, ?_⟩))
      simp [hpu]

/-- Claim C8 amended, witness: a single attempt of the existing user "zoe"
yields a sorted computed leaderboard. -/
theorem leaderboard_placeholder_iff_join_empty_witness :
    (∃ r ∈ [({ user_id := 1, score := 80 } : ResultRow)],
      ∃ u ∈ [({ id := 1, username := "zoe" } : UserRow)], u.id = r.user_id) ∧
    List.Sorted lbGE (get_leaderboard [{ id := 1, username := "zoe" }]
      [{ user_id := 1, score := 80 }]) :=
  ⟨⟨{ user_id := 1, score := 80 }, by decide,
    { id := 1, username := "zoe" }, by decide, rfl⟩,
   (leaderboard_placeholder_iff_join_empty.2 [{ id := 1, username := "zoe" }]
     [{ user_id := 1, score := 80 }]
     ⟨{ user_id := 1, score := 80 }, by decide,
      { id := 1, username := "zoe" }, by decide, rfl⟩).1⟩

end QuizMania
